import Mathlib

/-!
Verification development for the teen-poll backend (`backend/main.py`).

The backend is a FastAPI service over a PostgreSQL store.  The claims under
study concern the pure business logic of five request handlers and two
helpers, which we embed shallowly:

* tables become lists of rows (`DB` for the mutable tables, `Env` for the
  seeded read-only question/option tables);
* `NOW()` becomes an integer `now` parameter (seconds); the configured
  cooldown `QUESTION_COOLDOWN = '1 minute'` becomes the constant `60`;
* SQL `=` against a possibly-NULL column becomes `sqlEq` (NULL compares
  false against everything, including NULL);
* Python truthiness of the optional string/int request fields becomes
  `truthyStr` / `truthyInt` (None, `""` and `0` are falsy);
* each request-scoped transaction (`engine.begin()`) either commits,
  returning the final store, or — when an exception escapes the body — rolls
  back, returning the original store.  A `raise HTTPException` inside the
  `try` of `submit_vote` is caught by its blanket `except Exception` handler
  and re-raised as status 500 with detail `str(e)`, which for a FastAPI
  `HTTPException` renders as `"<code>: <detail>"`.
* the process-local `session_responses` dict only feeds the echoed
  `previous_responses` field of the reply and no stored table, so it is
  omitted from the state.
-/

/-- Row of the seeded `options_18` table (fields used by the handlers). -/
structure OptionRow where
  id : Nat
  question_id : String
  option_code : String
deriving DecidableEq

/-- Row of the seeded `questions_18` table (fields used by the handlers). -/
structure QuestionRow where
  question_id : String
  category_id : Nat
  block : Option Int
  check_box : Bool
deriving DecidableEq

/-- Row of `users_18`. -/
structure UserRow where
  uuid : String
  year_of_birth : Option Int
  referred_by : Option String
deriving DecidableEq

/-- Row of `responses_18`.  The anonymous insert of `submit_vote` supplies
neither `uuid` nor `option_code`, so both columns are nullable. -/
structure ResponseRow where
  question_id : String
  option_id : Nat
  uuid : Option String
  option_code : Option String
  created_at : Int
deriving DecidableEq

/-- Row of `checkbox_responses_18` (insert always supplies `option_code`;
`uuid` is passed through as given, so it may be NULL). -/
structure CheckboxRow where
  question_id : String
  option_id : Nat
  uuid : Option String
  option_code : String
  created_at : Int
deriving DecidableEq

/-- Row of `other_responses_18`. -/
structure OtherRow where
  question_id : String
  question_text : String
  other_text : String
  uuid : Option String
  submitted_at : Int
deriving DecidableEq

/-- Row of `user_block_progress_18`; `(uuid, category_id, block)` is the
conflict key of the upsert. -/
structure ProgressRow where
  uuid : String
  category_id : Nat
  block : Int
  completed_at : Int
deriving DecidableEq

/-- The mutable tables of the store. -/
structure DB where
  users : List UserRow
  responses : List ResponseRow
  checkboxResponses : List CheckboxRow
  otherResponses : List OtherRow
  blockProgress : List ProgressRow
deriving DecidableEq

/-- The seeded, read-only tables. -/
structure Env where
  questions : List QuestionRow
  options : List OptionRow
deriving DecidableEq

/-- `QUESTION_COOLDOWN = '1 minute'` from `config.py`, in seconds. -/
def QUESTION_COOLDOWN : Int := 60

/-- SQL equality of a nullable column against a bound parameter: a NULL on
either side makes the comparison non-true. -/
def sqlEq : Option String → Option String → Bool
  | some a, some b => a == b
  | _, _ => false

/-- Python truthiness of an optional string field (None and `""` are falsy). -/
def truthyStr : Option String → Bool
  | some s => !(s == "")
  | none => false

/-- Python truthiness of an optional int field (None and `0` are falsy). -/
def truthyInt : Option Int → Bool
  | some y => !(y == 0)
  | none => false

/-- Request body of `POST /api/vote` (the `session_id` field only affects the
echoed in-memory history, not the store). -/
structure Vote where
  question_id : String
  option_code : String
  uuid : Option String
  year_of_birth : Option Int
  referred_by : Option String
deriving DecidableEq

/-- Request body of `POST /api/checkbox-vote`. -/
structure CheckboxVote where
  question_id : String
  option_codes : List String
  uuid : Option String
  year_of_birth : Option Int
  other_text : Option String
  referred_by : Option String
deriving DecidableEq

/-- Status tags returned inside a committed JSON reply. -/
inductive VoteStatus where
  | already_voted
  | other_needed
  | success
deriving DecidableEq

/-- Result of a handler: a committed reply, or an HTTP error response (the
transaction was rolled back). -/
inductive ApiResult where
  | ok (status : VoteStatus)
  | httpError (status_code : Nat) (detail : String)
deriving DecidableEq

/-- The row predicate of the cooldown query
`uuid = :uuid AND question_id = :qid AND created_at > NOW() - INTERVAL '1 minute'`. -/
def cooldownMatch (now : Int) (uuid : Option String) (qid : String) (r : ResponseRow) : Bool :=
  sqlEq r.uuid uuid && r.question_id == qid && decide (r.created_at > now - QUESTION_COOLDOWN)

/-- Cooldown check of `submit_vote` over `responses_18`. -/
def cooldownHitResponses (db : DB) (now : Int) (uuid : Option String) (qid : String) : Bool :=
  db.responses.any (cooldownMatch now uuid qid)

/-- Row predicate of the `submit_checkbox_vote` cooldown query over
`checkbox_responses_18`. -/
def cooldownMatchCheckbox (now : Int) (uuid : Option String) (qid : String)
    (r : CheckboxRow) : Bool :=
  sqlEq r.uuid uuid && r.question_id == qid && decide (r.created_at > now - QUESTION_COOLDOWN)

/-- Cooldown check of `submit_checkbox_vote`. -/
def cooldownHitCheckbox (db : DB) (now : Int) (uuid : Option String) (qid : String) : Bool :=
  db.checkboxResponses.any (cooldownMatchCheckbox now uuid qid)

/-- The user creation/validation block that `submit_vote`,
`submit_checkbox_vote` and `submit_other_response` each inline verbatim:
if a (truthy) uuid and year of birth are supplied and no user row exists,
insert one, linking `referred_by` only when the referrer row exists. -/
def maybeCreateUser (db : DB) (uuid : Option String) (yob : Option Int)
    (referred_by : Option String) : DB :=
  if truthyStr uuid && truthyInt yob then
    match uuid, yob with
    | some u, some y =>
      if db.users.any (fun us => us.uuid == u) then db
      else if truthyStr referred_by then
        match referred_by with
        | some rid =>
          if db.users.any (fun us => us.uuid == rid) then
            { db with users := db.users ++ [⟨u, some y, some rid⟩] }
          else
            { db with users := db.users ++ [⟨u, some y, none⟩] }
        | none => db
      else { db with users := db.users ++ [⟨u, some y, none⟩] }
    | _, _ => db
  else db

/-- `SELECT 1 FROM responses_18 WHERE uuid = :uuid AND question_id = :qid LIMIT 1`
as an existence check. -/
def hasResponseRow (db : DB) (uuid : Option String) (qid : String) : Bool :=
  db.responses.any (fun r => sqlEq r.uuid uuid && r.question_id == qid)

/-- `SELECT 1 FROM checkbox_responses_18 WHERE uuid = :uuid AND question_id = :qid LIMIT 1`
as an existence check. -/
def hasCheckboxRow (db : DB) (uuid : Option String) (qid : String) : Bool :=
  db.checkboxResponses.any (fun r => sqlEq r.uuid uuid && r.question_id == qid)

/-- The per-question check of `all_block_questions_answered`: the
type-appropriate table is probed according to the `check_box` flag. -/
def answeredCheck (db : DB) (uuid : Option String) (qt : String × Bool) : Bool :=
  if qt.2 then hasCheckboxRow db uuid qt.1 else hasResponseRow db uuid qt.1

/-- The questions of one block:
`SELECT question_id, check_box FROM questions_18 WHERE category_id = :category_id AND block = :block`. -/
def blockQuestions (env : Env) (cat : Nat) (b : Int) : List QuestionRow :=
  env.questions.filter (fun q => q.category_id == cat && q.block == some b)

/-- `all_block_questions_answered(conn, uuid, category_id, block)`:
fetch the `(question_id, check_box)` pairs of the block; an empty set is not
complete; otherwise build the `answered` set and compare it with the set of
question ids. -/
def all_block_questions_answered (env : Env) (db : DB) (uuid : Option String)
    (cat : Nat) (b : Int) : Bool :=
  let qidTypes := (blockQuestions env cat b).map
      (fun q => (q.question_id, q.check_box))
  if qidTypes.isEmpty then false
  else
    let answered := qidTypes.filterMap
      (fun qt => if answeredCheck db uuid qt then some qt.1 else none)
    decide ((qidTypes.map Prod.fst).toFinset = answered.toFinset)

/-- The conflict key `(uuid, category_id, block)` of `user_block_progress_18`. -/
def progressKey (u : String) (cat : Nat) (b : Int) (p : ProgressRow) : Bool :=
  p.uuid == u && p.category_id == cat && p.block == b

/-- `mark_block_completed`: upsert into `user_block_progress_18` on the
conflict key `(uuid, category_id, block)`, setting `completed_at = NOW()`. -/
def mark_block_completed (db : DB) (u : String) (cat : Nat) (b : Int) (now : Int) : DB :=
  if db.blockProgress.any (progressKey u cat b) then
    { db with blockProgress := db.blockProgress.map (fun p =>
        if progressKey u cat b p then { p with completed_at := now } else p) }
  else
    { db with blockProgress := db.blockProgress ++ [⟨u, cat, b, now⟩] }

/-- The post-insert step shared by `submit_vote` and `submit_checkbox_vote`:
look up the question's category and block and, for a truthy uuid on a question
with a non-NULL block, upsert block progress when the block is complete. -/
def blockCompletionStep (env : Env) (db : DB) (uuid : Option String)
    (qid : String) (now : Int) : DB :=
  match env.questions.find? (fun q => q.question_id == qid) with
  | some q =>
    if truthyStr uuid then
      match q.block, uuid with
      | some b, some u =>
        if all_block_questions_answered env db (some u) q.category_id b then
          mark_block_completed db u q.category_id b now
        else db
      | _, _ => db
    else db
  | none => db

/-- `POST /api/vote` (`submit_vote`).  Returns the reply together with the
store after the transaction; an escaped exception rolls the store back and is
surfaced by the blanket `except Exception` handler as a 500 whose detail is
`str(e)`. -/
def submit_vote (env : Env) (db : DB) (now : Int) (vote : Vote) : ApiResult × DB :=
  if cooldownHitResponses db now vote.uuid vote.question_id then
    (ApiResult.ok VoteStatus.already_voted, db)
  else
    let db1 := maybeCreateUser db vote.uuid vote.year_of_birth vote.referred_by
    if vote.option_code == "OTHER" then
      (ApiResult.ok VoteStatus.other_needed, db1)
    else
      match env.options.find?
          (fun o => o.question_id == vote.question_id && o.option_code == vote.option_code) with
      | none =>
        -- `raise HTTPException(400, "Invalid option")` aborts the transaction;
        -- the handler's own `except Exception` catches it and re-raises
        -- `HTTPException(500, str(e))`, i.e. detail "400: Invalid option".
        (ApiResult.httpError 500 "400: Invalid option", db)
      | some opt =>
        let newRow : ResponseRow :=
          if truthyStr vote.uuid then
            ⟨vote.question_id, opt.id, vote.uuid, some vote.option_code, now⟩
          else
            ⟨vote.question_id, opt.id, none, none, now⟩
        let db2 := { db1 with responses := db1.responses ++ [newRow] }
        let db3 := blockCompletionStep env db2 vote.uuid vote.question_id now
        (ApiResult.ok VoteStatus.success, db3)

/-- Truthiness of `vote.other_text and vote.other_text.strip()`. -/
def otherTextPresent : Option String → Bool
  | some t => !(t.trim == "")
  | none => false

/-- The insert loop of `submit_checkbox_vote`: resolve each selected code and
insert a `checkbox_responses_18` row for each one that resolves (unresolvable
codes are skipped, not fatal). -/
def checkboxInsertFold (env : Env) (qid : String) (uuid : Option String) (now : Int)
    (codes : List String) (s : DB) : DB :=
  codes.foldl
    (fun s code =>
      match env.options.find?
          (fun o => o.question_id == qid && o.option_code == code) with
      | some opt =>
        { s with checkboxResponses := s.checkboxResponses ++
            [⟨qid, opt.id, uuid, code, now⟩] }
      | none => s) s

/-- `POST /api/checkbox-vote` (`submit_checkbox_vote`).  Unresolvable codes
are skipped, not fatal; an `OTHER` code with non-blank free text also writes
an `other_responses_18` row. -/
def submit_checkbox_vote (env : Env) (db : DB) (now : Int) (vote : CheckboxVote) :
    ApiResult × DB :=
  if cooldownHitCheckbox db now vote.uuid vote.question_id then
    (ApiResult.ok VoteStatus.already_voted, db)
  else
    let db1 := maybeCreateUser db vote.uuid vote.year_of_birth vote.referred_by
    let db2 := checkboxInsertFold env vote.question_id vote.uuid now vote.option_codes db1
    let db3 :=
      if vote.option_codes.contains "OTHER" && otherTextPresent vote.other_text then
        match vote.other_text with
        | some t =>
          { db2 with otherResponses := db2.otherResponses ++
              [⟨vote.question_id, "", t.trim, vote.uuid, now⟩] }
        | none => db2
      else db2
    let db4 := blockCompletionStep env db3 vote.uuid vote.question_id now
    (ApiResult.ok VoteStatus.success, db4)

/-!
## Result aggregation (`get_question_results`)

The checkbox branch groups `checkbox_responses_18` by `uuid`
(`STRING_AGG(option_code, ',') ... GROUP BY uuid`), skips groups whose uuid is
falsy (the NULL group and the `''` group) and splits a weight of `1/n` over
the `n` aggregated codes of the group, adding weight only at codes that are
keys of the result dict (defined option codes).  We read the aggregated comma
string back as the list of the group's codes (faithful for the non-empty,
comma-free codes the importer seeds).  Anonymous rows
(`uuid IS NULL OR uuid = ''`) are counted 1 per row at their code.
-/

/-- A uuid the checkbox aggregation treats as anonymous: the NULL group is
falsy in Python, as is the `''` group; the anonymous count query uses
`uuid IS NULL OR uuid = ''`. -/
def isAnonUuid : Option String → Bool
  | none => true
  | some s => s == ""

/-- The codes aggregated for one uuid group of a question's checkbox rows. -/
def groupCodes (rows : List CheckboxRow) (u : Option String) : List String :=
  (rows.filter (fun r => r.uuid == u)).map (fun r => r.option_code)

/-- The distinct uuids of the grouped query (`GROUP BY uuid` leaves the group
order unspecified; only the set of groups matters to the tally). -/
def groupUuids (rows : List CheckboxRow) : List (Option String) :=
  (rows.map (fun r => r.uuid)).dedup

/-- Weight one identified uuid group adds at the result-dict key `c`: each of
the group's `n` codes adds `1/n` at its own key, provided the key is defined;
so key `c` receives `count c · (1/n)`. -/
def userCodeWeight (defined : List String) (codes : List String) (c : String) : ℚ :=
  if codes.length = 0 then 0
  else if defined.contains c then (codes.count c : ℚ) * (1 / (codes.length : ℚ))
  else 0

/-- Value of the checkbox result dict at key `c`: the identified uuid groups'
split weights plus 1 per anonymous row with code `c`. -/
def checkboxTally (defined : List String) (rows : List CheckboxRow) (c : String) : ℚ :=
  ((groupUuids rows).filter (fun u => !isAnonUuid u)).foldl
      (fun acc u => acc + userCodeWeight defined (groupCodes rows u) c) 0
    + (if defined.contains c then
        ((rows.filter (fun r => isAnonUuid r.uuid && r.option_code == c)).length : ℚ)
      else 0)

/-- Value of the single-select result dict at key `c`: the `GROUP BY
option_code` counts are added back only at keys present in the dict, so the
NULL-code group (anonymous inserts) and undefined codes are dropped. -/
def singleTally (defined : List String) (rows : List ResponseRow) (c : String) : ℚ :=
  if defined.contains c then
    ((rows.filter (fun r => r.option_code == some c)).length : ℚ)
  else 0

/-- Rounding to 2 decimal places (`round(count, 2)`). -/
def roundTo2 (x : ℚ) : ℚ := ((round (x * 100) : ℤ) : ℚ) / 100

/-- The count the formatted results report for code `c`: for `OTHER` on a
non-checkbox question the count of `other_responses_18` rows replaces the
dict value; everything is rounded to 2 decimals. -/
def resultCount (is_checkbox : Bool) (defined : List String)
    (responses : List ResponseRow) (checkboxRows : List CheckboxRow)
    (otherCount : Nat) (c : String) : ℚ :=
  if c == "OTHER" then
    if is_checkbox then checkboxTally defined checkboxRows "OTHER"
    else (otherCount : ℚ)
  else if is_checkbox then checkboxTally defined checkboxRows c
  else singleTally defined responses c

/-- `GET /api/questions/{question_id}/results` (`get_question_results`):
the `(code, count)` pairs, one per defined option of the question (the SQL
`ORDER BY option_code` only reorders the seeded rows, which we keep in stored
order), and the free-text list. -/
def get_question_results (env : Env) (db : DB) (qid : String) :
    List (String × ℚ) × List String :=
  let is_checkbox :=
    match env.questions.find? (fun q => q.question_id == qid) with
    | some q => q.check_box
    | none => false
  let defined := (env.options.filter (fun o => o.question_id == qid)).map
      (fun o => o.option_code)
  let responses := db.responses.filter (fun r => r.question_id == qid)
  let checkboxRows := db.checkboxResponses.filter (fun r => r.question_id == qid)
  let otherTexts := ((db.otherResponses.filter (fun r => r.question_id == qid)).map
      (fun r => r.other_text)).reverse
  (defined.map (fun c =>
      (c, roundTo2 (resultCount is_checkbox defined responses checkboxRows
        otherTexts.length c))),
    otherTexts)

/-- The rows the checkbox insert loop appends: one per resolvable code, in
order of the submitted codes. -/
def insertedCheckboxRows (env : Env) (qid : String) (uuid : Option String) (now : Int)
    (codes : List String) : List CheckboxRow :=
  codes.filterMap (fun code =>
    (env.options.find? (fun o => o.question_id == qid && o.option_code == code)).map
      (fun opt => ⟨qid, opt.id, uuid, code, now⟩))

/-!
## Concrete fixtures used by witnesses and counterexamples

A two-question seed: `Q1` is single-select (options `A`, `B`, `OTHER`), `Q2`
is a checkbox question (options `X`, `Y`); both sit in block 1 of category 1.
-/

def envW : Env :=
  ⟨[⟨"Q1", 1, some 1, false⟩, ⟨"Q2", 1, some 1, true⟩],
    [⟨1, "Q1", "A"⟩, ⟨2, "Q1", "B"⟩, ⟨3, "Q1", "OTHER"⟩, ⟨4, "Q2", "X"⟩, ⟨5, "Q2", "Y"⟩]⟩

def dbEmptyW : DB := ⟨[], [], [], [], []⟩

/-- A store where user U1 voted on `Q1` and `Q2` at time 50. -/
def dbRecentW : DB :=
  ⟨[], [⟨"Q1", 1, some "U1", some "A", 50⟩], [⟨"Q2", 4, some "U1", "X", 50⟩], [], []⟩

/-- A store holding one anonymous single-select row for `Q1`: the insert
branch without a uuid supplies no `option_code` either, so both are NULL. -/
def dbAnonW : DB := ⟨[], [⟨"Q1", 1, none, none, 0⟩], [], [], []⟩

/-- Checkbox rows of user U1 for `Q2`: `X` at time 0 and, after the cooldown,
`X` and `Y` again at time 70 — three rows, two distinct codes. -/
def rowsC1 : List CheckboxRow :=
  [⟨"Q2", 4, some "U1", "X", 0⟩, ⟨"Q2", 4, some "U1", "X", 70⟩,
    ⟨"Q2", 5, some "U1", "Y", 70⟩]

/-!
## Helper lemmas
-/

theorem length_filter_or_disjoint {α : Type} (p q : α → Bool) (xs : List α)
    (h : ∀ x ∈ xs, ¬(p x = true ∧ q x = true)) :
    (xs.filter (fun x => p x || q x)).length
      = (xs.filter p).length + (xs.filter q).length := by
  induction xs with
  | nil => simp
  | cons x xs ih =>
    have hx := h x (List.mem_cons_self x xs)
    have ih' := ih (fun y hy => h y (List.mem_cons_of_mem _ hy))
    cases hp : p x <;> cases hq : q x
    · simp [List.filter_cons, hp, hq, ih']
    · simp [List.filter_cons, hp, hq, ih']
      omega
    · simp [List.filter_cons, hp, hq, ih']
      omega
    · exact absurd ⟨hp, hq⟩ hx

theorem sum_count_eq (keys : List String) (l : List String) (hl : l.Nodup) :
    (l.map (fun c => keys.count c)).sum
      = (keys.filter (fun k => l.contains k)).length := by
  induction l with
  | nil => simp
  | cons c t ih =>
    rw [List.nodup_cons] at hl
    obtain ⟨hc, ht⟩ := hl
    have step : (keys.filter (fun k => (c :: t).contains k)).length
        = (keys.filter (fun k => k == c)).length
          + (keys.filter (fun k => t.contains k)).length := by
      rw [← length_filter_or_disjoint (fun k => k == c) (fun k => t.contains k) keys ?_]
      · exact congrArg _ (List.filter_congr (fun k _ => by rw [List.contains_cons]))
      · intro k _ hk
        obtain ⟨h1, h2⟩ := hk
        rw [beq_iff_eq] at h1
        subst h1
        exact hc (by simpa using h2)
    have hcount : keys.count c = (keys.filter (fun k => k == c)).length := by
      rw [List.count_eq_countP, List.countP_eq_length_filter]
    simp only [List.map_cons, List.sum_cons, ih ht, step, hcount]

theorem foldl_add_eq_sum {β : Type} (g : β → ℚ) (l : List β) (a : ℚ) :
    l.foldl (fun acc u => acc + g u) a = a + (l.map g).sum := by
  induction l generalizing a with
  | nil => simp
  | cons x xs ih => simp [ih (a + g x)]; ring

theorem sum_map_zero {β : Type} (l : List β) : (l.map (fun _ => (0 : ℚ))).sum = 0 := by
  induction l with
  | nil => simp
  | cons x xs ih => simp [ih]

theorem sum_map_one {β : Type} (l : List β) :
    (l.map (fun _ => (1 : ℚ))).sum = (l.length : ℚ) := by
  induction l with
  | nil => simp
  | cons x xs ih => simp [ih]; ring

theorem sum_comm_list {β γ : Type} (g : β → γ → ℚ) (l₁ : List β) (l₂ : List γ) :
    (l₁.map (fun b => (l₂.map (fun c => g b c)).sum)).sum
      = (l₂.map (fun c => (l₁.map (fun b => g b c)).sum)).sum := by
  induction l₁ with
  | nil => simp [sum_map_zero]
  | cons b bs ih => simp [List.sum_map_add, ih]

theorem roundTo2_natCast (n : ℕ) : roundTo2 (n : ℚ) = (n : ℚ) := by
  unfold roundTo2
  have : ((n : ℚ) * 100) = ((n * 100 : ℕ) : ℚ) := by push_cast; ring
  rw [this, round_natCast]
  push_cast
  field_simp

/-- `maybeCreateUser` only ever touches the `users` table. -/
theorem maybeCreateUser_shape (db : DB) (a : Option String) (b : Option Int)
    (c : Option String) :
    ∃ us, maybeCreateUser db a b c = { db with users := us } := by
  unfold maybeCreateUser
  repeat' split
  all_goals exact ⟨_, rfl⟩

theorem maybeCreateUser_responses (db : DB) (a : Option String) (b : Option Int)
    (c : Option String) : (maybeCreateUser db a b c).responses = db.responses := by
  obtain ⟨us, h⟩ := maybeCreateUser_shape db a b c
  rw [h]

theorem maybeCreateUser_checkboxResponses (db : DB) (a : Option String) (b : Option Int)
    (c : Option String) :
    (maybeCreateUser db a b c).checkboxResponses = db.checkboxResponses := by
  obtain ⟨us, h⟩ := maybeCreateUser_shape db a b c
  rw [h]

theorem maybeCreateUser_blockProgress (db : DB) (a : Option String) (b : Option Int)
    (c : Option String) :
    (maybeCreateUser db a b c).blockProgress = db.blockProgress := by
  obtain ⟨us, h⟩ := maybeCreateUser_shape db a b c
  rw [h]

/-- `mark_block_completed` only ever touches the progress table. -/
theorem mark_block_completed_shape (db : DB) (u : String) (cat : Nat) (b : Int)
    (now : Int) :
    ∃ bp, mark_block_completed db u cat b now = { db with blockProgress := bp } := by
  unfold mark_block_completed
  split
  all_goals exact ⟨_, rfl⟩

/-- `blockCompletionStep` only ever touches the progress table. -/
theorem blockCompletionStep_shape (env : Env) (db : DB) (uuid : Option String)
    (qid : String) (now : Int) :
    ∃ bp, blockCompletionStep env db uuid qid now = { db with blockProgress := bp } := by
  unfold blockCompletionStep
  repeat' split
  all_goals first
    | exact mark_block_completed_shape ..
    | exact ⟨db.blockProgress, rfl⟩

theorem blockCompletionStep_users (env : Env) (db : DB) (uuid : Option String)
    (qid : String) (now : Int) :
    (blockCompletionStep env db uuid qid now).users = db.users := by
  obtain ⟨bp, h⟩ := blockCompletionStep_shape env db uuid qid now
  rw [h]

theorem blockCompletionStep_responses (env : Env) (db : DB) (uuid : Option String)
    (qid : String) (now : Int) :
    (blockCompletionStep env db uuid qid now).responses = db.responses := by
  obtain ⟨bp, h⟩ := blockCompletionStep_shape env db uuid qid now
  rw [h]

theorem blockCompletionStep_checkboxResponses (env : Env) (db : DB) (uuid : Option String)
    (qid : String) (now : Int) :
    (blockCompletionStep env db uuid qid now).checkboxResponses = db.checkboxResponses := by
  obtain ⟨bp, h⟩ := blockCompletionStep_shape env db uuid qid now
  rw [h]

/-- One `mark_block_completed` call leaves exactly one row for the key and
stamps it with the call's time, given the store's unique-key invariant. -/
theorem mark_block_completed_step (db : DB) (u : String) (cat : Nat) (b : Int) (t : Int)
    (h : (db.blockProgress.filter (progressKey u cat b)).length ≤ 1) :
    ((mark_block_completed db u cat b t).blockProgress.filter
        (progressKey u cat b)).length = 1
    ∧ ∀ p ∈ (mark_block_completed db u cat b t).blockProgress,
        progressKey u cat b p = true → p.completed_at = t := by
  unfold mark_block_completed
  by_cases hany : db.blockProgress.any (progressKey u cat b) = true
  · rw [if_pos hany]
    have hpres : ∀ p : ProgressRow,
        progressKey u cat b (if progressKey u cat b p then { p with completed_at := t } else p)
          = progressKey u cat b p := by
      intro p
      by_cases hk : progressKey u cat b p = true
      · rw [if_pos hk, hk]
        simp only [progressKey] at hk ⊢
        exact hk
      · rw [if_neg hk]
    have hfm : (db.blockProgress.map (fun p =>
          if progressKey u cat b p then { p with completed_at := t } else p)).filter
          (progressKey u cat b)
        = (db.blockProgress.filter (progressKey u cat b)).map (fun p =>
            if progressKey u cat b p then { p with completed_at := t } else p) := by
      rw [List.filter_map]
      exact congrArg _ (List.filter_congr (fun p _ => hpres p))
    constructor
    · show ((db.blockProgress.map _).filter (progressKey u cat b)).length = 1
      rw [hfm, List.length_map]
      obtain ⟨p, hp, hkp⟩ := List.any_eq_true.mp hany
      have h1 : 1 ≤ (db.blockProgress.filter (progressKey u cat b)).length := by
        have : p ∈ db.blockProgress.filter (progressKey u cat b) :=
          List.mem_filter.mpr ⟨hp, hkp⟩
        exact List.length_pos.mpr (fun hnil => by simp [hnil] at this)
      omega
    · intro p hp hkp
      obtain ⟨p0, hp0, hval⟩ := List.mem_map.mp hp
      by_cases hk0 : progressKey u cat b p0 = true
      · rw [if_pos hk0] at hval
        rw [← hval]
      · rw [if_neg hk0] at hval
        rw [← hval] at hkp
        exact absurd hkp hk0
  · rw [if_neg hany]
    have hnil : db.blockProgress.filter (progressKey u cat b) = [] := by
      rw [List.filter_eq_nil_iff]
      intro p hp
      exact fun hk => hany (List.any_eq_true.mpr ⟨p, hp, hk⟩)
    have hnew : progressKey u cat b ⟨u, cat, b, t⟩ = true := by
      simp [progressKey]
    constructor
    · show ((db.blockProgress ++ [(⟨u, cat, b, t⟩ : ProgressRow)]).filter
          (progressKey u cat b)).length = 1
      rw [List.filter_append, hnil]
      simp [hnew]
    · intro p hp hkp
      rcases List.mem_append.mp hp with hmem | hmem
      · exact absurd hkp (fun hk => hany (List.any_eq_true.mpr ⟨p, hmem, hk⟩))
      · rw [List.mem_singleton.mp hmem]

/-- C8: `mark_block_completed` is idempotent: starting from a store satisfying
the unique-key invariant (at most one `user_block_progress_18` row per
`(user, category, block)` triple), any non-empty sequence of calls for the
same triple leaves exactly one row for it, stamped with the time of the
latest call. -/
theorem mark_block_completed_idempotent (db : DB) (u : String) (cat : Nat) (b : Int)
    (ts : List Int) (h1 : ts ≠ [])
    (h : (db.blockProgress.filter (progressKey u cat b)).length ≤ 1) :
    (((ts.foldl (fun s t => mark_block_completed s u cat b t) db).blockProgress).filter
        (progressKey u cat b)).length = 1
    ∧ ∀ p ∈ (ts.foldl (fun s t => mark_block_completed s u cat b t) db).blockProgress,
        progressKey u cat b p = true → p.completed_at = ts.getLast h1 := by
  induction ts generalizing db with
  | nil => exact absurd rfl h1
  | cons t rest ih =>
    rcases eq_or_ne rest [] with hrest | hrest
    · subst hrest
      simpa using mark_block_completed_step db u cat b t h
    · have hstep := mark_block_completed_step db u cat b t
    -- after the first call the key count is exactly 1, so the invariant holds
      have hle : ((mark_block_completed db u cat b t).blockProgress.filter
          (progressKey u cat b)).length ≤ 1 := le_of_eq ((hstep h).1)
      have hfold : (t :: rest).foldl (fun s t => mark_block_completed s u cat b t) db
          = rest.foldl (fun s t => mark_block_completed s u cat b t)
              (mark_block_completed db u cat b t) := rfl
      have hlast : (t :: rest).getLast h1 = rest.getLast hrest :=
        List.getLast_cons hrest
      rw [hfold, hlast]
      exact ih (mark_block_completed db u cat b t) hrest hle

/-- C8 witness: two calls at times 3 then 9 on an empty store leave exactly the
single row stamped 9. -/
theorem mark_block_completed_idempotent_witness :
    ((([3, 9] : List Int).foldl
        (fun s t => mark_block_completed s "U" 1 1 t) ⟨[], [], [], [], []⟩).blockProgress.filter
        (progressKey "U" 1 1)).length = 1
    ∧ ∀ p ∈ (([3, 9] : List Int).foldl
        (fun s t => mark_block_completed s "U" 1 1 t) ⟨[], [], [], [], []⟩).blockProgress,
        progressKey "U" 1 1 p = true → p.completed_at = ([3, 9] : List Int).getLast (by decide) := by
  exact mark_block_completed_idempotent ⟨[], [], [], [], []⟩ "U" 1 1 [3, 9] (by decide)
    (by decide)

/-- C3: `all_block_questions_answered` is `false` on a block with zero
questions, and on a non-empty block it is `true` exactly when every question
of the block has at least one vote row by that user in the type-appropriate
table (`checkbox_responses_18` for `check_box` questions, `responses_18`
otherwise).  The hypothesis is the schema's uniqueness of `question_id`. -/
theorem all_block_questions_answered_iff (env : Env) (db : DB) (uuid : Option String)
    (cat : Nat) (b : Int)
    (hnd : ((blockQuestions env cat b).map (fun q => q.question_id)).Nodup) :
    all_block_questions_answered env db uuid cat b = true ↔
      (blockQuestions env cat b ≠ [] ∧
        ∀ q ∈ blockQuestions env cat b,
          answeredCheck db uuid (q.question_id, q.check_box) = true) := by
  unfold all_block_questions_answered
  rcases eq_or_ne (blockQuestions env cat b) [] with hq | hq
  · rw [hq]
    simp
  · have hne : ((blockQuestions env cat b).map
        (fun q => (q.question_id, q.check_box))).isEmpty = false :=
      List.isEmpty_eq_false.mpr (fun hm => hq (List.map_eq_nil_iff.mp hm))
    simp only [hne, Bool.false_eq_true, if_false, decide_eq_true_eq]
    constructor
    · intro hset
      refine ⟨hq, fun q hqm => ?_⟩
      have hx : q.question_id ∈ ((blockQuestions env cat b).map
          (fun q => (q.question_id, q.check_box))).map Prod.fst := by
        exact List.mem_map.mpr ⟨(q.question_id, q.check_box),
          List.mem_map.mpr ⟨q, hqm, rfl⟩, rfl⟩
      have hx2 := List.mem_toFinset.mpr hx
      rw [hset] at hx2
      obtain ⟨p, hpmem, hpeq⟩ := List.mem_filterMap.mp (List.mem_toFinset.mp hx2)
      by_cases hchk : answeredCheck db uuid p = true
      · rw [if_pos hchk, Option.some_inj] at hpeq
        obtain ⟨q', hq'mem, hq'eq⟩ := List.mem_map.mp hpmem
        have hid : q'.question_id = q.question_id := by
          rw [← hpeq, ← hq'eq]
        have hqq : q' = q := List.inj_on_of_nodup_map hnd hq'mem hqm hid
        rw [← hq'eq, hqq] at hchk
        exact hchk
      · rw [if_neg hchk] at hpeq
        exact absurd hpeq (by simp)
    · intro hall
      rw [Finset.ext_iff]
      intro x
      rw [List.mem_toFinset, List.mem_toFinset]
      constructor
      · intro hx
        obtain ⟨p, hpmem, hpeq⟩ := List.mem_map.mp hx
        obtain ⟨q, hqm, hqeq⟩ := List.mem_map.mp hpmem
        have hchk : answeredCheck db uuid p = true := by
          rw [← hqeq]
          exact hall.2 q hqm
        exact List.mem_filterMap.mpr ⟨p, hpmem, by rw [if_pos hchk, hpeq]⟩
      · intro hx
        obtain ⟨p, hpmem, hpeq⟩ := List.mem_filterMap.mp hx
        by_cases hchk : answeredCheck db uuid p = true
        · rw [if_pos hchk, Option.some_inj] at hpeq
          exact List.mem_map.mpr ⟨p, hpmem, hpeq⟩
        · rw [if_neg hchk] at hpeq
          exact absurd hpeq (by simp)

/-- C3 witness: user U1 answered single-select Q1 and checkbox Q2 of block 1 in
category 1, so the block is complete; the theorem's equivalence evaluates
accordingly at this store. -/
theorem all_block_questions_answered_iff_witness :
    all_block_questions_answered
        ⟨[⟨"Q1", 1, some 1, false⟩, ⟨"Q2", 1, some 1, true⟩],
          [⟨1, "Q1", "A"⟩, ⟨4, "Q2", "X"⟩]⟩
        ⟨[], [⟨"Q1", 1, some "U1", some "A", 0⟩], [⟨"Q2", 4, some "U1", "X", 0⟩], [], []⟩
        (some "U1") 1 1 = true := by
  rw [all_block_questions_answered_iff _ _ _ _ _ (by decide)]
  constructor
  · decide
  · decide

theorem sqlEq_eq_true_iff (a : Option String) (u : String) :
    sqlEq a (some u) = true ↔ a = some u := by
  cases a <;> simp [sqlEq]

theorem sqlEq_none_param (a : Option String) : sqlEq a none = false := by
  cases a <;> rfl

theorem sqlEq_none_row (b : Option String) : sqlEq none b = false := by
  cases b <;> rfl

theorem cooldownHitResponses_of_recent (db : DB) (now : Int) (u : String) (qid : String)
    (r : ResponseRow) (hr : r ∈ db.responses) (hru : r.uuid = some u)
    (hqid : r.question_id = qid) (ht : now - QUESTION_COOLDOWN < r.created_at) :
    cooldownHitResponses db now (some u) qid = true := by
  unfold cooldownHitResponses
  rw [List.any_eq_true]
  refine ⟨r, hr, ?_⟩
  simp [cooldownMatch, sqlEq_eq_true_iff, hru, hqid, ht]

theorem cooldownHitResponses_of_elapsed (db : DB) (now : Int) (u : String) (qid : String)
    (h : ∀ r ∈ db.responses, r.uuid = some u → r.question_id = qid →
      r.created_at ≤ now - QUESTION_COOLDOWN) :
    cooldownHitResponses db now (some u) qid = false := by
  unfold cooldownHitResponses
  rw [List.any_eq_false]
  intro r hr
  simp only [cooldownMatch, Bool.and_eq_true, beq_iff_eq, decide_eq_true_eq,
    sqlEq_eq_true_iff, not_and]
  rintro ⟨hru, hqid⟩ hlt
  have := h r hr hru hqid
  omega

theorem cooldownHitCheckbox_of_recent (db : DB) (now : Int) (u : String) (qid : String)
    (r : CheckboxRow) (hr : r ∈ db.checkboxResponses) (hru : r.uuid = some u)
    (hqid : r.question_id = qid) (ht : now - QUESTION_COOLDOWN < r.created_at) :
    cooldownHitCheckbox db now (some u) qid = true := by
  unfold cooldownHitCheckbox
  rw [List.any_eq_true]
  refine ⟨r, hr, ?_⟩
  simp [cooldownMatchCheckbox, sqlEq_eq_true_iff, hru, hqid, ht]

theorem cooldownHitCheckbox_of_elapsed (db : DB) (now : Int) (u : String) (qid : String)
    (h : ∀ r ∈ db.checkboxResponses, r.uuid = some u → r.question_id = qid →
      r.created_at ≤ now - QUESTION_COOLDOWN) :
    cooldownHitCheckbox db now (some u) qid = false := by
  unfold cooldownHitCheckbox
  rw [List.any_eq_false]
  intro r hr
  simp only [cooldownMatchCheckbox, Bool.and_eq_true, beq_iff_eq, decide_eq_true_eq,
    sqlEq_eq_true_iff, not_and]
  rintro ⟨hru, hqid⟩ hlt
  have := h r hr hru hqid
  omega

theorem cooldownHitResponses_anon (db : DB) (now : Int) (qid : String) :
    cooldownHitResponses db now none qid = false := by
  unfold cooldownHitResponses
  rw [List.any_eq_false]
  intro r _
  simp [cooldownMatch, sqlEq_none_param]

theorem cooldownHitCheckbox_anon (db : DB) (now : Int) (qid : String) :
    cooldownHitCheckbox db now none qid = false := by
  unfold cooldownHitCheckbox
  rw [List.any_eq_false]
  intro r _
  simp [cooldownMatchCheckbox, sqlEq_none_param]

theorem submit_vote_already_voted (env : Env) (db : DB) (now : Int) (v : Vote)
    (h : cooldownHitResponses db now v.uuid v.question_id = true) :
    submit_vote env db now v = (ApiResult.ok VoteStatus.already_voted, db) := by
  unfold submit_vote
  rw [h]
  simp

theorem submit_checkbox_vote_already_voted (env : Env) (db : DB) (now : Int)
    (cv : CheckboxVote)
    (h : cooldownHitCheckbox db now cv.uuid cv.question_id = true) :
    submit_checkbox_vote env db now cv = (ApiResult.ok VoteStatus.already_voted, db) := by
  unfold submit_checkbox_vote
  rw [h]
  simp

theorem submit_vote_other (env : Env) (db : DB) (now : Int) (v : Vote)
    (hcd : cooldownHitResponses db now v.uuid v.question_id = false)
    (hoth : v.option_code = "OTHER") :
    submit_vote env db now v
      = (ApiResult.ok VoteStatus.other_needed,
          maybeCreateUser db v.uuid v.year_of_birth v.referred_by) := by
  unfold submit_vote
  rw [hcd]
  simp [hoth]

theorem submit_vote_invalid_option (env : Env) (db : DB) (now : Int) (v : Vote)
    (hcd : cooldownHitResponses db now v.uuid v.question_id = false)
    (hoth : v.option_code ≠ "OTHER")
    (hopt : env.options.find? (fun o =>
        o.question_id == v.question_id && o.option_code == v.option_code) = none) :
    submit_vote env db now v = (ApiResult.httpError 500 "400: Invalid option", db) := by
  unfold submit_vote
  rw [hcd]
  simp [beq_eq_false_iff_ne.mpr hoth, hopt]

theorem submit_vote_success (env : Env) (db : DB) (now : Int) (v : Vote) (opt : OptionRow)
    (hcd : cooldownHitResponses db now v.uuid v.question_id = false)
    (hoth : v.option_code ≠ "OTHER")
    (hopt : env.options.find? (fun o =>
        o.question_id == v.question_id && o.option_code == v.option_code) = some opt) :
    submit_vote env db now v
      = (ApiResult.ok VoteStatus.success,
          blockCompletionStep env
            { maybeCreateUser db v.uuid v.year_of_birth v.referred_by with
              responses :=
                (maybeCreateUser db v.uuid v.year_of_birth v.referred_by).responses ++
                  [if truthyStr v.uuid then
                      ⟨v.question_id, opt.id, v.uuid, some v.option_code, now⟩
                    else ⟨v.question_id, opt.id, none, none, now⟩] }
            v.uuid v.question_id now) := by
  unfold submit_vote
  rw [hcd]
  simp [beq_eq_false_iff_ne.mpr hoth, hopt]

theorem checkboxInsertFold_spec (env : Env) (qid : String) (uuid : Option String)
    (now : Int) (codes : List String) (s : DB) :
    checkboxInsertFold env qid uuid now codes s
      = { s with checkboxResponses :=
            s.checkboxResponses ++ insertedCheckboxRows env qid uuid now codes } := by
  induction codes generalizing s with
  | nil => simp [checkboxInsertFold, insertedCheckboxRows]
  | cons c cs ih =>
    rcases hfind : env.options.find?
        (fun o => o.question_id == qid && o.option_code == c) with _ | opt
    · have hstep : checkboxInsertFold env qid uuid now (c :: cs) s
          = checkboxInsertFold env qid uuid now cs s := by
        simp [checkboxInsertFold, List.foldl_cons, hfind]
      rw [hstep, ih]
      simp [insertedCheckboxRows, List.filterMap_cons, hfind]
    · have hstep : checkboxInsertFold env qid uuid now (c :: cs) s
          = checkboxInsertFold env qid uuid now cs
              { s with checkboxResponses :=
                  s.checkboxResponses ++ [⟨qid, opt.id, uuid, c, now⟩] } := by
        simp [checkboxInsertFold, List.foldl_cons, hfind]
      rw [hstep, ih]
      simp [insertedCheckboxRows, List.filterMap_cons, hfind]

/-- Full characterization of a `submit_checkbox_vote` call that is not blocked
by the cooldown: it commits with status success, appends exactly the resolved
rows, runs the lazy user creation, and leaves `responses_18` alone. -/
theorem submit_checkbox_vote_spec (env : Env) (db : DB) (now : Int) (cv : CheckboxVote)
    (hcd : cooldownHitCheckbox db now cv.uuid cv.question_id = false) :
    (submit_checkbox_vote env db now cv).1 = ApiResult.ok VoteStatus.success
    ∧ (submit_checkbox_vote env db now cv).2.checkboxResponses
        = db.checkboxResponses
            ++ insertedCheckboxRows env cv.question_id cv.uuid now cv.option_codes
    ∧ (submit_checkbox_vote env db now cv).2.users
        = (maybeCreateUser db cv.uuid cv.year_of_birth cv.referred_by).users
    ∧ (submit_checkbox_vote env db now cv).2.responses = db.responses := by
  unfold submit_checkbox_vote
  rw [hcd]
  simp only [Bool.false_eq_true, if_false]
  rw [checkboxInsertFold_spec]
  refine ⟨by trivial, ?_, ?_, ?_⟩
  · rw [blockCompletionStep_checkboxResponses]
    split
    · split
      · simp [maybeCreateUser_checkboxResponses]
      · simp [maybeCreateUser_checkboxResponses]
    · simp [maybeCreateUser_checkboxResponses]
  · rw [blockCompletionStep_users]
    split
    · split
      · rfl
      · rfl
    · rfl
  · rw [blockCompletionStep_responses]
    split
    · split
      · simp [maybeCreateUser_responses]
      · simp [maybeCreateUser_responses]
    · simp [maybeCreateUser_responses]

theorem maybeCreateUser_no_yob (db : DB) (a : Option String) (c : Option String) :
    maybeCreateUser db a none c = db := by
  unfold maybeCreateUser
  simp [truthyInt]

theorem maybeCreateUser_new_user (db : DB) (u : String) (y : Int) (rid : String)
    (hu : u ≠ "") (hy : y ≠ 0) (hrid : rid ≠ "")
    (hnew : ∀ us ∈ db.users, us.uuid ≠ u) :
    maybeCreateUser db (some u) (some y) (some rid)
      = { db with users := db.users ++ [⟨u, some y,
            if db.users.any (fun us => us.uuid == rid) then some rid else none⟩] } := by
  have ht : (truthyStr (some u) && truthyInt (some y)) = true := by
    simp [truthyStr, truthyInt, hu, hy]
  have hex : db.users.any (fun us => us.uuid == u) = false := by
    rw [List.any_eq_false]
    intro us hus
    simp [hnew us hus]
  have htr : truthyStr (some rid) = true := by simp [truthyStr, hrid]
  unfold maybeCreateUser
  rw [ht, if_pos rfl]
  dsimp only
  rw [hex]
  simp only [Bool.false_eq_true, if_false]
  rw [htr, if_pos rfl]
  split <;> rfl

theorem blockCompletionStep_anon (env : Env) (db : DB) (qid : String) (now : Int) :
    blockCompletionStep env db none qid now = db := by
  unfold blockCompletionStep
  rcases h : env.questions.find? (fun q => q.question_id == qid) with _ | q
  · simp [h]
  · simp [h, truthyStr]

/-- C4: an identified `(user, question)` pair with a vote row inside the
cooldown window is rejected with status `already_voted` and the store is left
untouched, for both the single-select and the checkbox endpoint; once every
row of the pair is outside the window, the same pair's submission commits with
status success and appends its row(s). -/
theorem revote_cooldown_guard (env : Env) (db : DB) (now : Int) :
    (∀ (v : Vote) (u : String) (r : ResponseRow), v.uuid = some u →
        r ∈ db.responses → r.uuid = some u → r.question_id = v.question_id →
        now - QUESTION_COOLDOWN < r.created_at →
        submit_vote env db now v = (ApiResult.ok VoteStatus.already_voted, db))
    ∧ (∀ (cv : CheckboxVote) (u : String) (r : CheckboxRow), cv.uuid = some u →
        r ∈ db.checkboxResponses → r.uuid = some u → r.question_id = cv.question_id →
        now - QUESTION_COOLDOWN < r.created_at →
        submit_checkbox_vote env db now cv = (ApiResult.ok VoteStatus.already_voted, db))
    ∧ (∀ (v : Vote) (u : String) (opt : OptionRow), v.uuid = some u → u ≠ "" →
        (∀ r ∈ db.responses, r.uuid = some u → r.question_id = v.question_id →
          r.created_at ≤ now - QUESTION_COOLDOWN) →
        v.option_code ≠ "OTHER" →
        env.options.find? (fun o => o.question_id == v.question_id &&
          o.option_code == v.option_code) = some opt →
        (submit_vote env db now v).1 = ApiResult.ok VoteStatus.success
        ∧ (submit_vote env db now v).2.responses
            = db.responses ++ [⟨v.question_id, opt.id, some u, some v.option_code, now⟩])
    ∧ (∀ (cv : CheckboxVote) (u : String), cv.uuid = some u →
        (∀ r ∈ db.checkboxResponses, r.uuid = some u → r.question_id = cv.question_id →
          r.created_at ≤ now - QUESTION_COOLDOWN) →
        (submit_checkbox_vote env db now cv).1 = ApiResult.ok VoteStatus.success
        ∧ (submit_checkbox_vote env db now cv).2.checkboxResponses
            = db.checkboxResponses
              ++ insertedCheckboxRows env cv.question_id cv.uuid now cv.option_codes) := by
  refine ⟨?_, ?_, ?_, ?_⟩
  · intro v u r hu hr hru hqid ht
    exact submit_vote_already_voted env db now v
      (by rw [hu]; exact cooldownHitResponses_of_recent db now u v.question_id r hr hru hqid ht)
  · intro cv u r hu hr hru hqid ht
    exact submit_checkbox_vote_already_voted env db now cv
      (by rw [hu]; exact cooldownHitCheckbox_of_recent db now u cv.question_id r hr hru hqid ht)
  · intro v u opt hu hne helapsed hoth hopt
    have hcd : cooldownHitResponses db now v.uuid v.question_id = false := by
      rw [hu]; exact cooldownHitResponses_of_elapsed db now u v.question_id helapsed
    have hs := submit_vote_success env db now v opt hcd hoth hopt
    constructor
    · rw [hs]
    · rw [hs, blockCompletionStep_responses]
      have htr : truthyStr v.uuid = true := by
        rw [hu]; simp [truthyStr, hne]
      simp only [htr, if_pos]
      rw [maybeCreateUser_responses, hu]
  · intro cv u hu helapsed
    have hcd : cooldownHitCheckbox db now cv.uuid cv.question_id = false := by
      rw [hu]; exact cooldownHitCheckbox_of_elapsed db now u cv.question_id helapsed
    have hs := submit_checkbox_vote_spec env db now cv hcd
    exact ⟨hs.1, hs.2.1⟩

/-- C4 witness: at time 60 a revote on `Q1` by U1 (row at time 50) is rejected
and the store unchanged; at time 200 the same pair commits and appends its
row. -/
theorem revote_cooldown_guard_witness :
    submit_vote envW dbRecentW 60 ⟨"Q1", "A", some "U1", none, none⟩
        = (ApiResult.ok VoteStatus.already_voted, dbRecentW)
    ∧ (submit_vote envW dbRecentW 200 ⟨"Q1", "B", some "U1", none, none⟩).1
        = ApiResult.ok VoteStatus.success
    ∧ (submit_vote envW dbRecentW 200 ⟨"Q1", "B", some "U1", none, none⟩).2.responses
        = dbRecentW.responses ++ [⟨"Q1", 2, some "U1", some "B", 200⟩] := by
  refine ⟨?_, ?_, ?_⟩
  · exact (revote_cooldown_guard envW dbRecentW 60).1
      ⟨"Q1", "A", some "U1", none, none⟩ "U1" ⟨"Q1", 1, some "U1", some "A", 50⟩
      rfl (by decide) rfl rfl (by decide)
  · exact ((revote_cooldown_guard envW dbRecentW 200).2.2.1
      ⟨"Q1", "B", some "U1", none, none⟩ "U1" ⟨2, "Q1", "B"⟩
      rfl (by decide) (by decide) (by decide) (by decide)).1
  · exact ((revote_cooldown_guard envW dbRecentW 200).2.2.1
      ⟨"Q1", "B", some "U1", none, none⟩ "U1" ⟨2, "Q1", "B"⟩
      rfl (by decide) (by decide) (by decide) (by decide)).2

/-- C7: a single-select vote for the sentinel code `OTHER` that is not blocked
by the cooldown commits with status `other_needed`, runs only the lazy user
creation, and writes no `responses_18` row; option resolution and the insert
are never reached. -/
theorem other_sentinel_short_circuit (env : Env) (db : DB) (now : Int) (v : Vote)
    (hoth : v.option_code = "OTHER")
    (hcd : cooldownHitResponses db now v.uuid v.question_id = false) :
    submit_vote env db now v
      = (ApiResult.ok VoteStatus.other_needed,
          maybeCreateUser db v.uuid v.year_of_birth v.referred_by)
    ∧ (submit_vote env db now v).2.responses = db.responses := by
  have h := submit_vote_other env db now v hcd hoth
  refine ⟨h, ?_⟩
  rw [h]
  exact maybeCreateUser_responses ..

/-- C7 witness: selecting `OTHER` on `Q1` in the empty store returns
`other_needed` and leaves `responses_18` empty. -/
theorem other_sentinel_short_circuit_witness :
    submit_vote envW dbEmptyW 0 ⟨"Q1", "OTHER", none, none, none⟩
        = (ApiResult.ok VoteStatus.other_needed, dbEmptyW)
    ∧ (submit_vote envW dbEmptyW 0 ⟨"Q1", "OTHER", none, none, none⟩).2.responses
        = dbEmptyW.responses := by
  have h := other_sentinel_short_circuit envW dbEmptyW 0
    ⟨"Q1", "OTHER", none, none, none⟩ rfl (by decide)
  exact ⟨h.1, h.2⟩

/-- C6: a submission carrying no user id (SQL NULL) is never rejected by the
revote cooldown — the cooldown predicate matches no row at all when the bound
uuid is NULL, and symmetrically an anonymous stored row matches no cooldown
check — and such a submission never creates or refreshes a
`user_block_progress_18` row, in both `submit_vote` and
`submit_checkbox_vote`. -/
theorem anonymous_votes_invisible (env : Env) (db : DB) (now : Int) :
    (∀ (qid : String) (uuid : Option String) (r : ResponseRow), r.uuid = none →
        cooldownMatch now uuid qid r = false)
    ∧ (∀ (qid : String) (uuid : Option String) (r : CheckboxRow), r.uuid = none →
        cooldownMatchCheckbox now uuid qid r = false)
    ∧ (∀ v : Vote, v.uuid = none →
        cooldownHitResponses db now v.uuid v.question_id = false
        ∧ (submit_vote env db now v).1 ≠ ApiResult.ok VoteStatus.already_voted
        ∧ (submit_vote env db now v).2.blockProgress = db.blockProgress)
    ∧ (∀ cv : CheckboxVote, cv.uuid = none →
        cooldownHitCheckbox db now cv.uuid cv.question_id = false
        ∧ (submit_checkbox_vote env db now cv).1 ≠ ApiResult.ok VoteStatus.already_voted
        ∧ (submit_checkbox_vote env db now cv).2.blockProgress = db.blockProgress) := by
  refine ⟨?_, ?_, ?_, ?_⟩
  · intro qid uuid r hr
    simp [cooldownMatch, hr, sqlEq_none_row]
  · intro qid uuid r hr
    simp [cooldownMatchCheckbox, hr, sqlEq_none_row]
  · intro v hu
    have hcd : cooldownHitResponses db now v.uuid v.question_id = false := by
      rw [hu]; exact cooldownHitResponses_anon db now v.question_id
    refine ⟨hcd, ?_, ?_⟩
    · by_cases hoth : v.option_code = "OTHER"
      · rw [submit_vote_other env db now v hcd hoth]
        intro h
        exact absurd h (by simp)
      · rcases hopt : env.options.find? (fun o =>
            o.question_id == v.question_id && o.option_code == v.option_code) with _ | opt
        · rw [submit_vote_invalid_option env db now v hcd hoth hopt]
          intro h
          exact absurd h (by simp)
        · rw [submit_vote_success env db now v opt hcd hoth hopt]
          intro h
          exact absurd h (by simp)
    · by_cases hoth : v.option_code = "OTHER"
      · rw [submit_vote_other env db now v hcd hoth]
        exact maybeCreateUser_blockProgress ..
      · rcases hopt : env.options.find? (fun o =>
            o.question_id == v.question_id && o.option_code == v.option_code) with _ | opt
        · rw [submit_vote_invalid_option env db now v hcd hoth hopt]
        · rw [submit_vote_success env db now v opt hcd hoth hopt]
          rw [hu, blockCompletionStep_anon]
          exact maybeCreateUser_blockProgress db none v.year_of_birth v.referred_by
  · intro cv hu
    have hcd : cooldownHitCheckbox db now cv.uuid cv.question_id = false := by
      rw [hu]; exact cooldownHitCheckbox_anon db now cv.question_id
    have hs := submit_checkbox_vote_spec env db now cv hcd
    refine ⟨hcd, ?_, ?_⟩
    · rw [hs.1]
      simp
    · unfold submit_checkbox_vote
      rw [hcd]
      simp only [Bool.false_eq_true, if_false]
      rw [checkboxInsertFold_spec]
      rw [hu, blockCompletionStep_anon]
      split
      · split
        · exact maybeCreateUser_blockProgress ..
        · exact maybeCreateUser_blockProgress ..
      · exact maybeCreateUser_blockProgress ..

/-- C6 witness: an anonymous vote on `Q1` over a store holding recent rows is
not rejected by the cooldown and leaves `user_block_progress_18` unchanged. -/
theorem anonymous_votes_invisible_witness :
    cooldownHitResponses dbRecentW 60 (⟨"Q1", "A", none, none, none⟩ : Vote).uuid "Q1" = false
    ∧ (submit_vote envW dbRecentW 60 ⟨"Q1", "A", none, none, none⟩).1
        ≠ ApiResult.ok VoteStatus.already_voted
    ∧ (submit_vote envW dbRecentW 60 ⟨"Q1", "A", none, none, none⟩).2.blockProgress
        = dbRecentW.blockProgress := by
  exact (anonymous_votes_invisible envW dbRecentW 60).2.2.1
    ⟨"Q1", "A", none, none, none⟩ rfl

/-- C5 (code bug): a single-select vote whose `(question, code)` pair does not
resolve makes the handler raise `HTTPException(400, "Invalid option")`, but
`submit_vote`'s blanket `except Exception` catches it and re-raises it as a
generic HTTP 500 whose detail stringifies the 400 — the client-error class is
not surfaced distinctly from server faults.  No `responses_18` row is written
(the transaction rolls back). -/
theorem invalid_option_surfaced_as_server_fault :
    submit_vote envW dbEmptyW 0 ⟨"Q1", "ZZZ", none, none, none⟩
        = (ApiResult.httpError 500 "400: Invalid option", dbEmptyW)
    ∧ (submit_vote envW dbEmptyW 0 ⟨"Q1", "ZZZ", none, none, none⟩).2.responses
        = dbEmptyW.responses := by
  constructor
  · rfl
  · rfl

/-- C9: a submission that triggers lazy user creation (fresh truthy uuid plus
truthy birth year) and supplies a referrer id creates the user row with the
`referred_by` link exactly when the referrer exists, and without it otherwise;
either way the vote itself commits with status success — an unknown referrer
is never an error.  Both endpoints behave identically. -/
theorem lazy_user_creation_referral (env : Env) (db : DB) (now : Int) :
    (∀ (v : Vote) (u : String) (y : Int) (rid : String) (opt : OptionRow),
        v.uuid = some u → u ≠ "" → v.year_of_birth = some y → y ≠ 0 →
        v.referred_by = some rid → rid ≠ "" →
        (∀ us ∈ db.users, us.uuid ≠ u) →
        cooldownHitResponses db now v.uuid v.question_id = false →
        v.option_code ≠ "OTHER" →
        env.options.find? (fun o => o.question_id == v.question_id &&
          o.option_code == v.option_code) = some opt →
        (submit_vote env db now v).1 = ApiResult.ok VoteStatus.success
        ∧ (submit_vote env db now v).2.users
            = db.users ++ [⟨u, some y,
                if db.users.any (fun us => us.uuid == rid) then some rid else none⟩])
    ∧ (∀ (cv : CheckboxVote) (u : String) (y : Int) (rid : String),
        cv.uuid = some u → u ≠ "" → cv.year_of_birth = some y → y ≠ 0 →
        cv.referred_by = some rid → rid ≠ "" →
        (∀ us ∈ db.users, us.uuid ≠ u) →
        cooldownHitCheckbox db now cv.uuid cv.question_id = false →
        (submit_checkbox_vote env db now cv).1 = ApiResult.ok VoteStatus.success
        ∧ (submit_checkbox_vote env db now cv).2.users
            = db.users ++ [⟨u, some y,
                if db.users.any (fun us => us.uuid == rid) then some rid else none⟩]) := by
  constructor
  · intro v u y rid opt hu hne hyb hy0 hrb hrne hnew hcd hoth hopt
    have hs := submit_vote_success env db now v opt hcd hoth hopt
    have hmc := maybeCreateUser_new_user db u y rid hne hy0 hrne hnew
    constructor
    · rw [hs]
    · rw [hs, blockCompletionStep_users]
      rw [hu, hyb, hrb, hmc]
  · intro cv u y rid hu hne hyb hy0 hrb hrne hnew hcd
    have hs := submit_checkbox_vote_spec env db now cv hcd
    refine ⟨hs.1, ?_⟩
    rw [hs.2.2.1]
    rw [hu, hyb, hrb, maybeCreateUser_new_user db u y rid hne hy0 hrne hnew]

/-- C9 witness: a fresh user U2 voting on `Q1` with unknown referrer U1 over
the empty store is created unlinked and the vote succeeds. -/
theorem lazy_user_creation_referral_witness :
    (submit_vote envW dbEmptyW 0 ⟨"Q1", "A", some "U2", some 2002, some "U1"⟩).1
        = ApiResult.ok VoteStatus.success
    ∧ (submit_vote envW dbEmptyW 0 ⟨"Q1", "A", some "U2", some 2002, some "U1"⟩).2.users
        = dbEmptyW.users ++ [⟨"U2", some 2002,
            if dbEmptyW.users.any (fun us => us.uuid == "U1") then some "U1" else none⟩] :=
  (lazy_user_creation_referral envW dbEmptyW 0).1
    ⟨"Q1", "A", some "U2", some 2002, some "U1"⟩ "U2" 2002 "U1" ⟨1, "Q1", "A"⟩
    rfl (by decide) rfl (by decide) rfl (by decide) (by decide) (by decide) (by decide)
    (by decide)

/-- C10: a single-select submission with a truthy uuid but no birth year
creates no user row, yet the inserted `responses_18` row carries the uuid; a
later submission of the same pair inside the cooldown window is rejected, the
row satisfies the block-completion existence check for that uuid, and both
checks are independent of the `users_18` table. -/
theorem uuid_without_birth_year (env : Env) (db : DB) (now : Int) (v : Vote) (u : String)
    (opt : OptionRow)
    (hu : v.uuid = some u) (hne : u ≠ "") (hy : v.year_of_birth = none)
    (hcd : cooldownHitResponses db now v.uuid v.question_id = false)
    (hoth : v.option_code ≠ "OTHER")
    (hopt : env.options.find? (fun o => o.question_id == v.question_id &&
        o.option_code == v.option_code) = some opt) :
    (submit_vote env db now v).1 = ApiResult.ok VoteStatus.success
    ∧ (submit_vote env db now v).2.users = db.users
    ∧ (submit_vote env db now v).2.responses
        = db.responses ++ [⟨v.question_id, opt.id, some u, some v.option_code, now⟩]
    ∧ (∀ now2 : Int, now2 - QUESTION_COOLDOWN < now →
        cooldownHitResponses (submit_vote env db now v).2 now2 (some u) v.question_id = true)
    ∧ hasResponseRow (submit_vote env db now v).2 (some u) v.question_id = true
    ∧ (∀ (us : List UserRow) (uu : Option String) (cat : Nat) (b : Int),
        all_block_questions_answered env
            { (submit_vote env db now v).2 with users := us } uu cat b
          = all_block_questions_answered env (submit_vote env db now v).2 uu cat b) := by
  have hs := submit_vote_success env db now v opt hcd hoth hopt
  have htr : truthyStr v.uuid = true := by rw [hu]; simp [truthyStr, hne]
  have hresp : (submit_vote env db now v).2.responses
      = db.responses ++ [⟨v.question_id, opt.id, some u, some v.option_code, now⟩] := by
    rw [hs, blockCompletionStep_responses]
    simp only [htr, if_pos]
    rw [maybeCreateUser_responses, hu]
  refine ⟨by rw [hs], ?_, hresp, ?_, ?_, ?_⟩
  · rw [hs, blockCompletionStep_users, hy, maybeCreateUser_no_yob]
  · intro now2 hlt
    refine cooldownHitResponses_of_recent _ now2 u v.question_id
      ⟨v.question_id, opt.id, some u, some v.option_code, now⟩ ?_ rfl rfl hlt
    rw [hresp]
    exact List.mem_append_right _ (List.mem_singleton_self _)
  · unfold hasResponseRow
    rw [hresp, List.any_append]
    have : sqlEq (some u) (some u) = true := by simp [sqlEq]
    simp [this]
  · intro us uu cat b
    rfl

/-- C10 witness: U3 votes on `Q1` with no birth year over the empty store; no
user row appears, the vote succeeds, and a revote at time 30 is in cooldown. -/
theorem uuid_without_birth_year_witness :
    (submit_vote envW dbEmptyW 0 ⟨"Q1", "B", some "U3", none, none⟩).1
        = ApiResult.ok VoteStatus.success
    ∧ (submit_vote envW dbEmptyW 0 ⟨"Q1", "B", some "U3", none, none⟩).2.users
        = dbEmptyW.users
    ∧ cooldownHitResponses (submit_vote envW dbEmptyW 0 ⟨"Q1", "B", some "U3", none, none⟩).2
        30 (some "U3") "Q1" = true := by
  have h := uuid_without_birth_year envW dbEmptyW 0 ⟨"Q1", "B", some "U3", none, none⟩
    "U3" ⟨2, "Q1", "B"⟩ rfl (by decide) rfl (by decide) (by decide) (by decide)
  exact ⟨h.1, h.2.1, h.2.2.2.1 30 (by decide)⟩

theorem contains_eq_true_of_mem {l : List String} {a : String} (h : a ∈ l) :
    l.contains a = true :=
  List.elem_eq_true_of_mem h

theorem contains_eq_false_of_not_mem {l : List String} {a : String} (h : a ∉ l) :
    l.contains a = false := by
  cases hc : l.contains a
  · rfl
  · exact absurd (List.mem_of_elem_eq_true hc) h

theorem single_sum_aux (d : List String) (responses : List ResponseRow)
    (checkboxRows : List CheckboxRow) (otherCount : Nat) :
    ∀ l : List String, l.Nodup → (∀ c ∈ l, c ∈ d) →
      (l.map (fun c =>
          roundTo2 (resultCount false d responses checkboxRows otherCount c))).sum
        = ((responses.filter (fun r =>
              match r.option_code with
              | some k => l.contains k && !(k == "OTHER")
              | none => false)).length : ℚ)
          + (if l.contains "OTHER" then (otherCount : ℚ) else 0) := by
  intro l
  induction l with
  | nil =>
    intro _ _
    have hnil : responses.filter (fun r =>
        match r.option_code with
        | some k => ([] : List String).contains k && !(k == "OTHER")
        | none => false) = [] := by
      rw [List.filter_eq_nil_iff]
      intro r _
      cases hoc : r.option_code <;> simp [hoc]
    rw [hnil]
    simp
  | cons c t ih =>
    intro hnd hsub
    rw [List.nodup_cons] at hnd
    obtain ⟨hct, hnt⟩ := hnd
    have ih' := ih hnt (fun x hx => hsub x (List.mem_cons_of_mem _ hx))
    rw [List.map_cons, List.sum_cons, ih']
    by_cases hc : c = "OTHER"
    · subst hc
      have h1 : resultCount false d responses checkboxRows otherCount "OTHER"
          = (otherCount : ℚ) := by
        simp [resultCount]
      have hfeq : responses.filter (fun r =>
            match r.option_code with
            | some k => ("OTHER" :: t).contains k && !(k == "OTHER")
            | none => false)
          = responses.filter (fun r =>
            match r.option_code with
            | some k => t.contains k && !(k == "OTHER")
            | none => false) := by
        apply List.filter_congr
        intro r _
        cases hoc : r.option_code with
        | none => rfl
        | some k =>
          by_cases hk : k = "OTHER"
          · subst hk
            simp [List.contains_cons]
          · simp [List.contains_cons, hk]
      have hcontO : ("OTHER" :: t).contains "OTHER" = true :=
        contains_eq_true_of_mem (List.mem_cons_self _ _)
      have hcontOt : t.contains "OTHER" = false := contains_eq_false_of_not_mem hct
      rw [h1, roundTo2_natCast, hfeq, hcontO, hcontOt]
      simp
      ring
    · have hcd : c ∈ d := hsub c (List.mem_cons_self c t)
      have h1 : resultCount false d responses checkboxRows otherCount c
          = ((responses.filter (fun r => r.option_code == some c)).length : ℚ) := by
        unfold resultCount
        rw [beq_eq_false_iff_ne.mpr hc]
        simp only [Bool.false_eq_true, if_false]
        unfold singleTally
        rw [contains_eq_true_of_mem hcd, if_pos rfl]
      have hdisj : ∀ r ∈ responses,
          ¬((r.option_code == some c) = true
            ∧ (match r.option_code with
                | some k => t.contains k && !(k == "OTHER")
                | none => false) = true) := by
        intro r _ hpq
        obtain ⟨hp, hq⟩ := hpq
        rw [beq_iff_eq] at hp
        rw [hp] at hq
        simp only [Bool.and_eq_true] at hq
        exact hct (List.mem_of_elem_eq_true hq.1)
      have hcong : responses.filter (fun r =>
            match r.option_code with
            | some k => (c :: t).contains k && !(k == "OTHER")
            | none => false)
          = responses.filter (fun r =>
              (r.option_code == some c)
              || (match r.option_code with
                  | some k => t.contains k && !(k == "OTHER")
                  | none => false)) := by
        apply List.filter_congr
        intro r _
        cases hoc : r.option_code with
        | none => simp
        | some k =>
          by_cases hkc : k = c
          · subst hkc
            simp [List.contains_cons, hc]
          · simp [List.contains_cons, hkc]
      have hsplit := length_filter_or_disjoint (fun r => r.option_code == some c)
        (fun r => match r.option_code with
          | some k => t.contains k && !(k == "OTHER")
          | none => false) responses hdisj
      have hcont : (c :: t).contains "OTHER" = t.contains "OTHER" := by
        rw [List.contains_cons, beq_eq_false_iff_ne.mpr (Ne.symm hc), Bool.false_or]
      rw [h1, roundTo2_natCast, hcong, hsplit, hcont]
      push_cast
      ring

/-- C2 (amended): for a single-select question, the sum of the per-option
counts reported by the results endpoint equals the number of `responses_18`
rows whose stored `option_code` is one of the question's defined non-`OTHER`
codes, plus — when the question defines an `OTHER` option — the number of
`other_responses_18` rows (which replace the `OTHER` dict value).  Rows
without an `option_code` (the anonymous insert) and rows with unknown codes
are dropped by the tally, so the sum is not in general the raw row count. -/
theorem single_select_tally_sum (defined : List String) (responses : List ResponseRow)
    (checkboxRows : List CheckboxRow) (otherCount : Nat) (hnd : defined.Nodup) :
    (defined.map (fun c =>
        roundTo2 (resultCount false defined responses checkboxRows otherCount c))).sum
      = ((responses.filter (fun r =>
            match r.option_code with
            | some k => defined.contains k && !(k == "OTHER")
            | none => false)).length : ℚ)
        + (if defined.contains "OTHER" then (otherCount : ℚ) else 0) :=
  single_sum_aux defined responses checkboxRows otherCount defined hnd (fun _ hc => hc)

/-- C2 witness: options `A`, `B`, `OTHER`, one identified `A` row, one
anonymous row (NULL code), two free-text answers: the reported counts sum to
`1 + 2`, matching the characterization. -/
theorem single_select_tally_sum_witness :
    ((["A", "B", "OTHER"] : List String).map (fun c =>
        roundTo2 (resultCount false ["A", "B", "OTHER"]
          [⟨"Q1", 1, some "U1", some "A", 0⟩, ⟨"Q1", 1, none, none, 0⟩] [] 2 c))).sum
      = ((([⟨"Q1", 1, some "U1", some "A", 0⟩,
            ⟨"Q1", 1, none, none, 0⟩] : List ResponseRow).filter (fun r =>
            match r.option_code with
            | some k => (["A", "B", "OTHER"] : List String).contains k && !(k == "OTHER")
            | none => false)).length : ℚ)
        + (if (["A", "B", "OTHER"] : List String).contains "OTHER"
            then ((2 : Nat) : ℚ) else 0) :=
  single_select_tally_sum ["A", "B", "OTHER"]
    [⟨"Q1", 1, some "U1", some "A", 0⟩, ⟨"Q1", 1, none, none, 0⟩] [] 2 (by decide)

/-- C2 counterexample: one anonymous `responses_18` row for `Q1` (stored with
NULL `option_code` by the anonymous insert branch) is invisible to the tally:
the reported counts sum to 0 while the question has 1 response row. -/
theorem single_select_sum_counterexample :
    ((get_question_results envW dbAnonW "Q1").1.map (fun p => p.2)).sum = 0
    ∧ (dbAnonW.responses.filter (fun r => r.question_id == "Q1")).length = 1
    ∧ ((get_question_results envW dbAnonW "Q1").1.map (fun p => p.2)).sum
        ≠ ((dbAnonW.responses.filter (fun r => r.question_id == "Q1")).length : ℚ) := by
  have h1 : ((get_question_results envW dbAnonW "Q1").1.map (fun p => p.2)).sum = 0 := by
    simp +decide [get_question_results, envW, dbAnonW, resultCount, singleTally, roundTo2]
  have h2 : (dbAnonW.responses.filter (fun r => r.question_id == "Q1")).length = 1 := by
    decide
  refine ⟨h1, h2, ?_⟩
  rw [h1, h2]
  norm_num

theorem dedup_const {α : Type} [DecidableEq α] (a : α) :
    ∀ l : List α, l ≠ [] → (∀ x ∈ l, x = a) → l.dedup = [a] := by
  intro l
  induction l with
  | nil => intro h _; exact absurd rfl h
  | cons x rest ih =>
    intro _ hall
    rcases eq_or_ne rest [] with hr | hr
    · subst hr
      rw [hall x (List.mem_cons_self x [])]
      rw [List.dedup_cons_of_not_mem (List.not_mem_nil a), List.dedup_nil]
    · have hx : x = a := hall x (List.mem_cons_self x rest)
      have hmem : x ∈ rest := by
        obtain ⟨y, ys, rfl⟩ := List.exists_cons_of_ne_nil hr
        have hy : y = a := hall y (List.mem_cons_of_mem x (List.mem_cons_self y ys))
        rw [hx, ← hy]
        exact List.mem_cons_self y ys
      rw [List.dedup_cons_of_mem hmem]
      exact ih hr (fun z hz => hall z (List.mem_cons_of_mem _ hz))

/-- C1 (amended): in the checkbox tally an identified user's weight is split
over their `checkbox_responses_18` *rows* — each of the user's n stored rows
(repeated codes counted per row, e.g. across resubmissions after the
cooldown) adds `1/n` at its own code.  Hence, provided every stored code is a
defined option of the question: summed over the defined codes, each identified
user contributes exactly 1 and each anonymous row contributes exactly 1; and a
user whose rows are the whole table gives code `c` exactly
`(occurrences of c) / n`, not `1/#distinct-codes`. -/
theorem checkbox_tally_weights :
    (∀ (defined : List String) (rows : List CheckboxRow), defined.Nodup →
        (∀ r ∈ rows, r.option_code ∈ defined) →
        (defined.map (fun c => checkboxTally defined rows c)).sum
          = (((groupUuids rows).filter (fun u => !isAnonUuid u)).length : ℚ)
            + ((rows.filter (fun r => isAnonUuid r.uuid)).length : ℚ))
    ∧ (∀ (defined : List String) (u : String) (rows : List CheckboxRow) (c : String),
        u ≠ "" → rows ≠ [] → (∀ r ∈ rows, r.uuid = some u) → c ∈ defined →
        checkboxTally defined rows c
          = ((rows.map (fun r => r.option_code)).count c : ℚ)
            * (1 / (rows.length : ℚ))) := by
  constructor
  · intro defined rows hnd hall
    have hpoint : ∀ c, checkboxTally defined rows c
        = (((groupUuids rows).filter (fun u => !isAnonUuid u)).map
            (fun u => userCodeWeight defined (groupCodes rows u) c)).sum
          + (if defined.contains c
              then ((rows.filter
                  (fun r => isAnonUuid r.uuid && r.option_code == c)).length : ℚ)
              else 0) := by
      intro c
      unfold checkboxTally
      rw [foldl_add_eq_sum, zero_add]
    rw [List.map_congr_left (fun c _ => hpoint c), List.sum_map_add]
    have huser : (defined.map (fun c =>
        (((groupUuids rows).filter (fun u => !isAnonUuid u)).map
          (fun u => userCodeWeight defined (groupCodes rows u) c)).sum)).sum
        = (((groupUuids rows).filter (fun u => !isAnonUuid u)).length : ℚ) := by
      rw [sum_comm_list (fun c u => userCodeWeight defined (groupCodes rows u) c) defined
        ((groupUuids rows).filter (fun u => !isAnonUuid u))]
      have hone : ∀ u ∈ (groupUuids rows).filter (fun u => !isAnonUuid u),
          (defined.map (fun c => userCodeWeight defined (groupCodes rows u) c)).sum = 1 := by
        intro u hu
        have humem : u ∈ groupUuids rows := (List.mem_filter.mp hu).1
        have hmm : u ∈ rows.map (fun r => r.uuid) := List.mem_dedup.mp humem
        obtain ⟨r0, hr0, hr0u⟩ := List.mem_map.mp hmm
        have hr0f : r0 ∈ rows.filter (fun r => r.uuid == u) :=
          List.mem_filter.mpr ⟨hr0, by simp [hr0u]⟩
        have hlen : (groupCodes rows u).length ≠ 0 := by
          unfold groupCodes
          rw [List.length_map]
          intro h
          rw [List.length_eq_zero] at h
          rw [h] at hr0f
          exact absurd hr0f (List.not_mem_nil r0)
        have hw : ∀ c ∈ defined, userCodeWeight defined (groupCodes rows u) c
            = ((groupCodes rows u).count c : ℚ)
              * (1 / ((groupCodes rows u).length : ℚ)) := by
          intro c hcd
          unfold userCodeWeight
          rw [if_neg hlen, contains_eq_true_of_mem hcd, if_pos rfl]
        rw [List.map_congr_left hw, List.sum_map_mul_right]
        have hcast : (defined.map (fun c => ((groupCodes rows u).count c : ℚ))).sum
            = (((defined.map (fun c => (groupCodes rows u).count c)).sum : ℕ) : ℚ) := by
          rw [Nat.cast_list_sum, List.map_map]
          rfl
        rw [hcast, sum_count_eq _ _ hnd]
        have hself : (groupCodes rows u).filter (fun k => defined.contains k)
            = groupCodes rows u := by
          apply List.filter_eq_self.mpr
          intro k hk
          unfold groupCodes at hk
          obtain ⟨r, hr, rfl⟩ := List.mem_map.mp hk
          exact contains_eq_true_of_mem (hall r (List.mem_filter.mp hr).1)
        rw [hself]
        have hne0 : ((groupCodes rows u).length : ℚ) ≠ 0 := by
          rw [Nat.cast_ne_zero]
          exact hlen
        field_simp
      rw [List.map_congr_left hone, sum_map_one]
    have hanon : (defined.map (fun c =>
        if defined.contains c
          then ((rows.filter (fun r => isAnonUuid r.uuid && r.option_code == c)).length : ℚ)
          else 0)).sum
        = ((rows.filter (fun r => isAnonUuid r.uuid)).length : ℚ) := by
      have hif : ∀ c ∈ defined, (if defined.contains c
          then ((rows.filter (fun r => isAnonUuid r.uuid && r.option_code == c)).length : ℚ)
          else 0)
          = ((((rows.filter (fun r => isAnonUuid r.uuid)).map
              (fun r => r.option_code)).count c : ℕ) : ℚ) := by
        intro c hcd
        rw [contains_eq_true_of_mem hcd, if_pos rfl]
        have heq : rows.filter (fun r => isAnonUuid r.uuid && r.option_code == c)
            = (rows.filter (fun r => isAnonUuid r.uuid)).filter
                (fun r => r.option_code == c) := by
          rw [List.filter_filter]
          exact List.filter_congr (fun r _ => Bool.and_comm _ _)
        rw [heq, List.count_eq_countP, List.countP_map, List.countP_eq_length_filter]
        rfl
      rw [List.map_congr_left hif]
      have hcast : (defined.map (fun c =>
          ((((rows.filter (fun r => isAnonUuid r.uuid)).map
            (fun r => r.option_code)).count c : ℕ) : ℚ))).sum
          = (((defined.map (fun c =>
              ((rows.filter (fun r => isAnonUuid r.uuid)).map
                (fun r => r.option_code)).count c)).sum : ℕ) : ℚ) := by
        rw [Nat.cast_list_sum, List.map_map]
        rfl
      rw [hcast, sum_count_eq _ _ hnd]
      have hself : ((rows.filter (fun r => isAnonUuid r.uuid)).map
          (fun r => r.option_code)).filter (fun k => defined.contains k)
          = (rows.filter (fun r => isAnonUuid r.uuid)).map (fun r => r.option_code) := by
        apply List.filter_eq_self.mpr
        intro k hk
        obtain ⟨r, hr, rfl⟩ := List.mem_map.mp hk
        exact contains_eq_true_of_mem (hall r (List.mem_filter.mp hr).1)
      rw [hself, List.length_map]
    rw [huser, hanon]
  · intro defined u rows c hne hnil hall hc
    have hdedup : (rows.map (fun r => r.uuid)).dedup = [some u] := by
      apply dedup_const
      · intro hm
        exact hnil (List.map_eq_nil_iff.mp hm)
      · intro x hx
        obtain ⟨r, hr, rfl⟩ := List.mem_map.mp hx
        exact hall r hr
    have hfilter : (groupUuids rows).filter (fun u' => !isAnonUuid u') = [some u] := by
      rw [groupUuids, hdedup]
      simp [isAnonUuid, hne]
    have hcodes : groupCodes rows (some u) = rows.map (fun r => r.option_code) := by
      unfold groupCodes
      congr 1
      apply List.filter_eq_self.mpr
      intro r hr
      simp [hall r hr]
    have hlen : (rows.map (fun r => r.option_code)).length ≠ 0 := by
      rw [List.length_map]
      intro h
      exact hnil (List.length_eq_zero.mp h)
    have hanon : rows.filter (fun r => isAnonUuid r.uuid && r.option_code == c) = [] := by
      rw [List.filter_eq_nil_iff]
      intro r hr
      simp [hall r hr, isAnonUuid, hne]
    unfold checkboxTally
    rw [hfilter]
    simp only [List.foldl_cons, List.foldl_nil, zero_add]
    rw [hcodes, hanon]
    unfold userCodeWeight
    rw [if_neg hlen, contains_eq_true_of_mem hc, if_pos rfl]
    rw [List.length_map]
    simp

/-- C1 counterexample: user U1's rows for `Q2` are `X`, `X`, `Y` (three rows,
two distinct codes).  The claim's split by distinct codes would give `X` the
weight `1/2`; the tally actually gives `X` the weight `2/3`. -/
theorem checkbox_weight_counterexample :
    checkboxTally ["X", "Y"] rowsC1 "X" = 2 / 3
    ∧ (rowsC1.map (fun r => r.option_code)).dedup.length = 2
    ∧ checkboxTally ["X", "Y"] rowsC1 "X" ≠ 1 / 2 := by
  have h1 : checkboxTally ["X", "Y"] rowsC1 "X" = 2 / 3 := by
    simp +decide [checkboxTally, rowsC1, groupUuids, groupCodes, userCodeWeight, isAnonUuid]
    norm_num
  refine ⟨h1, by decide, ?_⟩
  rw [h1]
  norm_num

/-- C1 witness: for U1's rows `X`, `X`, `Y` the per-user closed form applies —
`X` receives `2 · (1/3)` — and the totals part applies to the same table. -/
theorem checkbox_tally_weights_witness :
    checkboxTally ["X", "Y"] rowsC1 "X"
        = ((rowsC1.map (fun r => r.option_code)).count "X" : ℚ)
          * (1 / (rowsC1.length : ℚ))
    ∧ ((["X", "Y"] : List String).map (fun c => checkboxTally ["X", "Y"] rowsC1 c)).sum
        = (((groupUuids rowsC1).filter (fun u => !isAnonUuid u)).length : ℚ)
          + ((rowsC1.filter (fun r => isAnonUuid r.uuid)).length : ℚ) := by
  constructor
  · exact checkbox_tally_weights.2 ["X", "Y"] "U1" rowsC1 "X"
      (by decide) (by decide) (by decide) (by decide)
  · exact checkbox_tally_weights.1 ["X", "Y"] rowsC1 (by decide) (by decide)
